import Mathlib

/-
Verification of the calendar / day-resolution logic of the assignment-tracker
application (src/src/ErrorBoundary.tsx).  The TypeScript source is shallowly
embedded: pure helper functions become Lean functions over `String` / `Nat` /
`Int`, JavaScript `null`/`undefined` become `Option`, and the JS number `NaN`
is modelled by an explicit constructor of `JsNum`.  React state handlers are
embedded as pure state-transition functions on the lists they update;
`crypto.randomUUID()` and `new Date()` timestamps are injected as parameters.

Platform primitives used by the source are modelled explicitly:
  * `jsNumber`    models `Number(s)` on the string shapes reachable here
                  (digit strings, the empty string -> 0, anything else -> NaN);
  * `splitOnChar` models `String.prototype.split` with a one-character
                  separator;
  * `natRepr`     models `String(n)` for a natural number (decimal digits);
  * `daysFromCivil` / `civilFromDays` model the proleptic-Gregorian day
                  arithmetic of the JS `Date` object (Howard Hinnant's civil
                  calendar algorithms); `jsGetDay` models `Date.getDay`
                  (0 = Sunday), anchored at 1970-01-01 being a Thursday.
-/

namespace AssignmentTracker

/-- Decimal digit character: `dChar n` is the character for digit `n`. -/
def dChar (n : Nat) : Char := Char.ofNat (48 + n)

/-- Decimal digits of a natural number, most significant first.  The first
argument is structural fuel (any fuel `> n` yields the digits of `n`). -/
def natDigitsAux : Nat → Nat → List Char
  | 0, _ => []
  | fuel + 1, n =>
    if n < 10 then [dChar n]
    else natDigitsAux fuel (n / 10) ++ [dChar (n % 10)]

/-- Model of JS `String(n)` for a natural number `n`: its decimal digits. -/
def natRepr (n : Nat) : String := ⟨natDigitsAux (n + 1) n⟩

/-- Model of JS `String(n).padStart(2, "0")`. -/
def pad2 (n : Nat) : String := if n < 10 then "0" ++ natRepr n else natRepr n

/-- Model of JS `Number(s)` on the inputs reachable in this code base:
the empty string yields `0`, a non-empty all-digit string yields its value,
anything else yields NaN (`none`).  (Signs, whitespace, decimal points and
exponents never occur in the date/time strings this application handles.) -/
def jsNumber (s : String) : Option Nat :=
  if s.data = [] then some 0
  else if s.data.all (fun c => c.isDigit) then
    some (s.data.foldl (fun acc c => acc * 10 + (c.toNat - 48)) 0)
  else none

/-- Model of JS `String.prototype.split` with a single-character separator,
on the underlying character list.  `"".split(sep)` is `[""]`, matching JS. -/
def splitOnChar (sep : Char) : List Char → List (List Char)
  | [] => [[]]
  | c :: rest =>
    let r := splitOnChar sep rest
    if c = sep then [] :: r
    else
      match r with
      | [] => [[c]]
      | h :: t => (c :: h) :: t

/-- `s.split(sep)` for a one-character separator, producing strings. -/
def jsSplit (sep : Char) (s : String) : List String :=
  (splitOnChar sep s.data).map String.mk

/-- ASCII whitespace, the only whitespace occurring in this application's
strings (JS `trim` also strips other Unicode whitespace). -/
def isWsChar (c : Char) : Bool :=
  c = ' ' || c = '\t' || c = '\n' || c = '\r'

/-- Model of JS `String.prototype.trim`: strip whitespace from both ends. -/
def jsTrim (s : String) : String :=
  ⟨((s.data.dropWhile isWsChar).reverse.dropWhile isWsChar).reverse⟩

/-- Model of JS `String.prototype.toLowerCase` on the ASCII class names this
application handles. -/
def jsToLower (s : String) : String :=
  ⟨s.data.map Char.toLower⟩

/-- A JS number that is either an actual integer or NaN. -/
inductive JsNum where
  | nan : JsNum
  | int : Int → JsNum
deriving DecidableEq, Repr

/-- `start + 60` on a JS number (NaN propagates). -/
def jsAdd60 : JsNum → JsNum
  | .nan => .nan
  | .int n => .int (n + 60)

/-- Embedding of `timeToMinutes` (ErrorBoundary.tsx:149-154):
```
const timeToMinutes = (value: string) => {
  if (!value) return null;
  const [hours, minutes] = value.split(":").map(Number);
  if (Number.isNaN(hours) || Number.isNaN(minutes)) return null;
  return hours * 60 + minutes;
};
```
`none` is JS `null`.  When the string contains no `":"`, the destructured
`minutes` is `undefined` (not NaN: `Number.isNaN(undefined)` is `false`), so
the guard passes and `hours * 60 + undefined` evaluates to NaN. -/
def timeToMinutes (value : String) : Option JsNum :=
  if value = "" then none
  else
    let parts := jsSplit ':' value
    match (parts.get? 0).map jsNumber, (parts.get? 1).map jsNumber with
    | some none, _ => none                         -- Number.isNaN(hours)
    | some (some _), some none => none             -- Number.isNaN(minutes)
    | some (some _), none => some .nan             -- minutes undefined: h*60+undefined = NaN
    | some (some h), some (some m) => some (.int (h * 60 + m))
    | none, _ => some .nan                         -- unreachable: split is never empty

/-- Embedding of `minutesToTime` (ErrorBoundary.tsx:156-161):
```
const minutesToTime = (minutes: number) => {
  const clamped = Math.max(0, Math.min(23 * 60 + 59, minutes));
  const hours = Math.floor(clamped / 60);
  const mins = clamped % 60;
  return `${String(hours).padStart(2, "0")}:${String(mins).padStart(2, "0")}`;
};
```  -/
def minutesToTime (minutes : Int) : String :=
  let clamped := max 0 (min (23 * 60 + 59) minutes)
  let hours := clamped.toNat / 60
  let mins := clamped.toNat % 60
  pad2 hours ++ ":" ++ pad2 mins

/-- The canonical zero-padded "HH:MM" string for hour `h` and minute `m`. -/
def timeStr (h m : Nat) : String :=
  ⟨[dChar (h / 10), dChar (h % 10), ':', dChar (m / 10), dChar (m % 10)]⟩

/-- A local calendar date, as held by a JS `Date` at local midnight.
Only nonnegative (proleptic-Gregorian) years occur in this application. -/
structure LocalDate where
  year : Nat
  month : Nat
  day : Nat
deriving DecidableEq, Repr

/-- Whether `y` is a Gregorian leap year (the rule used by JS `Date`). -/
def isLeapYear (y : Nat) : Bool :=
  y % 4 = 0 && (y % 100 ≠ 0 || y % 400 = 0)

/-- Number of days in month `m` (1..12) of year `y`. -/
def daysInMonth (y m : Nat) : Nat :=
  if m = 2 then (if isLeapYear y then 29 else 28)
  else if m = 4 || m = 6 || m = 9 || m = 11 then 30
  else 31

/-- Days since 1970-01-01 of a civil date (Hinnant's `days_from_civil`);
this models the day arithmetic of the JS `Date` object. -/
def daysFromCivil (d : LocalDate) : Int :=
  let y : Int := if d.month ≤ 2 then (d.year : Int) - 1 else (d.year : Int)
  let era : Int := (if 0 ≤ y then y else y - 399) / 400
  let yoe : Int := y - era * 400
  let mp : Int := ((d.month : Int) + 9) % 12
  let doy : Int := (153 * mp + 2) / 5 + (d.day : Int) - 1
  let doe : Int := yoe * 365 + yoe / 4 - yoe / 100 + doy
  era * 146097 + doe - 719468

/-- Civil date from days since 1970-01-01 (Hinnant's `civil_from_days`). -/
def civilFromDays (z : Int) : LocalDate :=
  let z' := z + 719468
  let era : Int := (if 0 ≤ z' then z' else z' - 146096) / 146097
  let doe : Int := z' - era * 146097
  let yoe : Int := (doe - doe / 1460 + doe / 36524 - doe / 146096) / 365
  let y : Int := yoe + era * 400
  let doy : Int := doe - (365 * yoe + yoe / 4 - yoe / 100)
  let mp : Int := (5 * doy + 2) / 153
  let dd : Int := doy - (153 * mp + 2) / 5 + 1
  let mm : Int := if mp < 10 then mp + 3 else mp - 9
  ⟨(if mm ≤ 2 then y + 1 else y).toNat, mm.toNat, dd.toNat⟩

/-- Model of JS `Date.getDay` (0 = Sunday .. 6 = Saturday);
1970-01-01 (day 0) was a Thursday, so `getDay = (days + 4) mod 7`. -/
def jsGetDay (d : LocalDate) : Nat := ((daysFromCivil d + 4) % 7).toNat

/-- Embedding of `dayIndex` (ErrorBoundary.tsx:285-288):
```
const dayIndex = (date: Date) => {
  const jsDay = date.getDay(); // 0 = Sun
  return jsDay === 0 ? 6 : jsDay - 1; // 0 = Mon
};
```  -/
def dayIndex (d : LocalDate) : Nat :=
  let jsDay := jsGetDay d
  if jsDay = 0 then 6 else jsDay - 1

/-- Embedding of `DAYS` (ErrorBoundary.tsx:267). -/
def DAYS : List String := ["Mon", "Tue", "Wed", "Thu", "Fri", "Sat", "Sun"]

/-- The `new Date(year, ...)` constructor remaps years 0..99 to 1900..1999. -/
def remapYear (y : Nat) : Nat := if y ≤ 99 then 1900 + y else y

/-- Embedding of `parseLocalDate` (ErrorBoundary.tsx:101-104):
```
const parseLocalDate = (value: string) => {
  const [year, month, day] = value.split("-").map(Number);
  return new Date(year, month - 1, day);
};
```
`none` models an Invalid Date (a NaN component, or a missing component, which
is `undefined` and turns into NaN inside the `Date` constructor).  The `Date`
constructor's normalization of out-of-range month/day fields is not modelled:
such inputs also yield `none`, and every theorem below only applies
`parseLocalDate` to in-range dates. -/
def parseLocalDate (value : String) : Option LocalDate :=
  let parts := jsSplit '-' value
  match (parts.get? 0).bind jsNumber, (parts.get? 1).bind jsNumber,
        (parts.get? 2).bind jsNumber with
  | some y, some m, some d =>
    if 1 ≤ m ∧ m ≤ 12 ∧ 1 ≤ d ∧ d ≤ daysInMonth (remapYear y) m then
      some ⟨remapYear y, m, d⟩
    else none
  | _, _, _ => none

/-- Embedding of `toISODate` (ErrorBoundary.tsx:278-283):
```
const toISODate = (date: Date) => {
  const year = date.getFullYear();
  const month = String(date.getMonth() + 1).padStart(2, "0");
  const day = String(date.getDate()).padStart(2, "0");
  return `${year}-${month}-${day}`;
};
```
Note the year is not zero-padded. -/
def toISODate (d : LocalDate) : String :=
  natRepr d.year ++ "-" ++ pad2 d.month ++ "-" ++ pad2 d.day

/-- Assignment completion status (`type Status = "Open" | "Done"`). -/
inductive Status where
  | Open : Status
  | Done : Status
deriving DecidableEq, Repr

/-- Embedding of the `Assignment` record (ErrorBoundary.tsx:46-56).
The optional `completedAt?: string` field is an `Option`. -/
structure Assignment where
  id : String
  title : String
  course : String
  dueDate : String
  dueTime : String
  status : Status
  notes : String
  createdAt : String
  completedAt : Option String
deriving DecidableEq, Repr

/-- Embedding of the `Course` record (ErrorBoundary.tsx:60-66). -/
structure Course where
  id : String
  name : String
  meetingDays : List String
  meetingStartTime : String
  meetingEndTime : String
deriving DecidableEq, Repr

/-- Embedding of the `CalendarEvent` record (ErrorBoundary.tsx:68-76). -/
structure CalendarEvent where
  id : String
  title : String
  courseId : String
  date : String
  time : String
  notes : String
  createdAt : String
deriving DecidableEq, Repr

/-- Override kinds (`kind: "no_school" | "day_schedule"`). -/
inductive OverrideKind where
  | no_school : OverrideKind
  | day_schedule : OverrideKind
deriving DecidableEq, Repr

/-- Embedding of the `SchoolOverride` record (ErrorBoundary.tsx:78-84).
The optional `dayOfWeek?` and `label?` fields are modelled as strings with
`""` for `undefined` (both only ever get truthiness- and value-checked,
for which `""` and `undefined` behave identically here). -/
structure SchoolOverride where
  id : String
  date : String
  kind : OverrideKind
  dayOfWeek : String
  label : String
deriving DecidableEq, Repr

/-- Embedding of `overrideByDate` (ErrorBoundary.tsx:660-664):
```
const overrideByDate = useMemo(() => {
  const map = new Map<string, SchoolOverride>();
  overrides.forEach((item) => map.set(item.date, item));
  return map;
}, [overrides]);
```
`overrideByDate ovs iso` is `map.get(iso)`: since `Map.set` overwrites, the
entry is the last element of `ovs` whose `date` equals `iso`. -/
def overrideByDate (ovs : List SchoolOverride) (iso : String) : Option SchoolOverride :=
  ovs.foldl (fun acc o => if o.date = iso then some o else acc) none

/-- Embedding of `scheduleDayForDate` (ErrorBoundary.tsx:666-672):
```
const scheduleDayForDate = (date: Date) => {
  const iso = toISODate(date);
  const override = overrideByDate.get(iso);
  if (override?.kind === "no_school") return null;
  if (override?.kind === "day_schedule" && override.dayOfWeek) return override.dayOfWeek;
  return DAYS[dayIndex(date)];
};
```  -/
def scheduleDayForDate (ovs : List SchoolOverride) (date : LocalDate) : Option String :=
  let iso := toISODate date
  match overrideByDate ovs iso with
  | some o =>
    if o.kind = .no_school then none
    else if o.kind = .day_schedule ∧ o.dayOfWeek ≠ "" then some o.dayOfWeek
    else some (DAYS.getD (dayIndex date) "")
  | none => some (DAYS.getD (dayIndex date) "")

/-- Lexicographic comparison on character lists by code point: the model of
`a.localeCompare(b) <= 0` for the ASCII date/time strings compared here. -/
def lexLe : List Char → List Char → Bool
  | [], _ => true
  | _ :: _, [] => false
  | a :: as, b :: bs =>
    decide (a.toNat < b.toNat) || (decide (a.toNat = b.toNat) && lexLe as bs)

/-- Insert `x` into `l` before the first element `y` with `le x y`; folding
this over a list is a stable sort, the model of the (stable) JS
`Array.prototype.sort`. -/
def insertSorted (le : α → α → Bool) (x : α) : List α → List α
  | [] => [x]
  | y :: ys => if le x y then x :: y :: ys else y :: insertSorted le x ys

/-- Stable insertion sort: the model of JS `list.sort(comparator)`. -/
def insertionSort (le : α → α → Bool) (l : List α) : List α :=
  l.foldr (insertSorted le) []

/-- The sort key of `eventsByDate`'s comparator: `a.time || "99:99"`
(an untimed event gets a sentinel larger than every valid time). -/
def evSortKey (e : CalendarEvent) : String :=
  if e.time = "" then "99:99" else e.time

/-- The comparator of `eventsByDate` (ErrorBoundary.tsx:642):
`(a.time || "99:99").localeCompare(b.time || "99:99")`, ascending. -/
def evLe (a b : CalendarEvent) : Bool :=
  lexLe (evSortKey a).data (evSortKey b).data

/-- Embedding of `eventsByDate` (ErrorBoundary.tsx:634-645) evaluated at one
date: the map groups events by `date` in list order (so a date's bucket is the
filtered list in original order) and then sorts each bucket with the
time comparator.  `eventsByDate.get(date) ?? []` is this list. -/
def eventsOnDate (events : List CalendarEvent) (date : String) : List CalendarEvent :=
  insertionSort evLe (events.filter (fun e => e.date = date))

/-- The weekday the day view resolves for the selected date string: the source
parses `selectedDate` into `selectedDateObj` (ErrorBoundary.tsx:648-651) and
calls `scheduleDayForDate(selectedDateObj)`.  An unparseable string gives an
Invalid Date, whose `getDay()` is NaN, so `DAYS[...]` is `undefined` (falsy
like `null`): modelled as `none`. -/
def weekdayForSelected (ovs : List SchoolOverride) (selectedDate : String) : Option String :=
  match parseLocalDate selectedDate with
  | some d => scheduleDayForDate ovs d
  | none => none

/-- Embedding of the day view's `recurring` (ErrorBoundary.tsx:1457-1462):
```
const recurring = classes.filter(
  (course) =>
    weekday &&
    course.meetingDays.includes(weekday) &&
    (course.meetingStartTime || course.meetingEndTime)
);
```  -/
def dayViewRecurring (classes : List Course) (weekday : Option String) : List Course :=
  classes.filter fun c =>
    (match weekday with
     | some w => w ≠ "" && c.meetingDays.contains w
     | none => false)
    && (c.meetingStartTime ≠ "" || c.meetingEndTime ≠ "")

/-- Item kind tag (`type: "class" | "event"`); `cls` is the `"class"` tag. -/
inductive ItemType where
  | cls : ItemType
  | evt : ItemType
deriving DecidableEq, Repr

/-- A timed agenda item of the day view (the union of the class-item and
event-item object shapes; fields absent on class items are `""`). -/
structure TimedItem where
  id : String
  title : String
  type : ItemType
  start : Option JsNum
  endMin : Option JsNum
  timeValue : String
  courseId : String
  notes : String
deriving DecidableEq, Repr

/-- An all-day agenda item of the day view. -/
structure AllDayItem where
  id : String
  label : String
  type : ItemType
deriving DecidableEq, Repr

/-- The class-item constructor of `timedItems` (ErrorBoundary.tsx:1465-1475):
`end: end ?? (start !== null ? start + 60 : null)` (`??` is nullish
coalescing, so a NaN `end` is kept, and NaN propagates through `start + 60`). -/
def mkClassTimed (c : Course) : TimedItem :=
  let start := timeToMinutes c.meetingStartTime
  { id := "class-" ++ c.id
    title := c.name
    type := .cls
    start := start
    endMin :=
      match timeToMinutes c.meetingEndTime with
      | some e => some e
      | none => match start with
                | some s => some (jsAdd60 s)
                | none => none
    timeValue := ""
    courseId := ""
    notes := "" }

/-- The event-item constructor of `timedItems` (ErrorBoundary.tsx:1476-1489). -/
def mkEventTimed (e : CalendarEvent) : TimedItem :=
  let start := timeToMinutes e.time
  { id := "event-" ++ e.id
    title := e.title
    type := .evt
    start := start
    endMin :=
      match start with
      | some s => some (jsAdd60 s)
      | none => none
    timeValue := e.time
    courseId := e.courseId
    notes := e.notes }

/-- Embedding of the day view's `timedItems` (ErrorBoundary.tsx:1464-1490):
class items from `recurring` concatenated with event items, then
`.filter((item) => item.start !== null)` (note NaN is not null). -/
def dayViewTimedItems (classes : List Course) (events : List CalendarEvent)
    (ovs : List SchoolOverride) (selectedDate : String) : List TimedItem :=
  let weekday := weekdayForSelected ovs selectedDate
  let recurring := dayViewRecurring classes weekday
  let eventsToday := eventsOnDate events selectedDate
  (recurring.map mkClassTimed ++ eventsToday.map mkEventTimed).filter
    fun it => it.start ≠ none

/-- Embedding of the day view's `allDayItems` (ErrorBoundary.tsx:1492-1505):
```
const allDayItems = [
  ...recurring
    .filter((course) => !course.meetingStartTime && !course.meetingEndTime)
    .map((course) => ({ id: `class-all-...`, label: course.name, type: "class" })),
  ...eventsToday.filter((event) => !event.time).map((event) => ({ ... type: "event" }))
];
```  -/
def dayViewAllDayItems (classes : List Course) (events : List CalendarEvent)
    (ovs : List SchoolOverride) (selectedDate : String) : List AllDayItem :=
  let weekday := weekdayForSelected ovs selectedDate
  let recurring := dayViewRecurring classes weekday
  let eventsToday := eventsOnDate events selectedDate
  (recurring.filter fun c => c.meetingStartTime = "" && c.meetingEndTime = "").map
      (fun c => { id := "class-all-" ++ c.id, label := c.name, type := ItemType.cls })
    ++ (eventsToday.filter fun e => e.time = "").map
      (fun e => { id := "event-all-" ++ e.id, label := e.title, type := ItemType.evt })

/-- The form state backing `handleAddNoSchool`. -/
structure NoSchoolForm where
  startDate : String
  endDate : String
  label : String
deriving DecidableEq, Repr

/-- The form state backing `handleAddSpecialDay`. -/
structure SpecialDayForm where
  date : String
  dayOfWeek : String
deriving DecidableEq, Repr

/-- The dates from `s` to `e` inclusive (the `for` loop of
`handleAddNoSchool`, which steps one day at a time while `day <= rangeEnd`;
`Date` comparison at local midnight is day-number comparison). -/
def dateRange (s e : LocalDate) : List LocalDate :=
  let n := daysFromCivil e - daysFromCivil s
  if n < 0 then []
  else (List.range (n.toNat + 1)).map fun i => civilFromDays (daysFromCivil s + i)

/-- Embedding of `handleAddNoSchool` (ErrorBoundary.tsx:796-822), as the
transition it performs on the overrides list.  `idGen` injects the
`crypto.randomUUID()` values (one per generated record).  The handler:
returns unchanged on an empty start date or an unparseable date; parses
`endDate || startDate` as the end; swaps the endpoints if reversed; then
prepends one `no_school` record per day of the range
(`const updated = [...nextOverrides, ...overrides]`). -/
def handleAddNoSchool (form : NoSchoolForm) (idGen : LocalDate → String)
    (overrides : List SchoolOverride) : List SchoolOverride :=
  if form.startDate = "" then overrides
  else
    match parseLocalDate form.startDate,
          parseLocalDate (if form.endDate = "" then form.startDate else form.endDate) with
    | some s, some e =>
      let rangeStart := if daysFromCivil s ≤ daysFromCivil e then s else e
      let rangeEnd := if daysFromCivil s ≤ daysFromCivil e then e else s
      let nextOverrides := (dateRange rangeStart rangeEnd).map fun d =>
        { id := idGen d, date := toISODate d, kind := OverrideKind.no_school,
          dayOfWeek := "", label := jsTrim form.label : SchoolOverride }
      nextOverrides ++ overrides
    | _, _ => overrides

/-- Embedding of `handleAddSpecialDay` (ErrorBoundary.tsx:824-837):
guards on a nonempty date and weekday, then prepends one `day_schedule`
record (`const updated = [next, ...overrides]`). -/
def handleAddSpecialDay (form : SpecialDayForm) (id : String)
    (overrides : List SchoolOverride) : List SchoolOverride :=
  if form.date = "" ∨ form.dayOfWeek = "" then overrides
  else { id := id, date := form.date, kind := OverrideKind.day_schedule,
         dayOfWeek := form.dayOfWeek, label := "" : SchoolOverride } :: overrides

/-- Embedding of `courseCounts` (ErrorBoundary.tsx:398-407): a map from course
name to total/open assignment counts; `get name` is `none` exactly when no
assignment carries that course name, and `total` is the number that do. -/
def courseCounts (assignments : List Assignment) (name : String) : Option (Nat × Nat) :=
  let total := (assignments.filter fun a => a.course = name).length
  let opn := (assignments.filter fun a => a.course = name ∧ a.status = Status.Open).length
  if total = 0 then none else some (total, opn)

/-- Embedding of `handleDeleteClass` (ErrorBoundary.tsx:472-480), restricted
to its effect on the class list:
```
const counts = courseCounts.get(course.name);
if (counts && counts.total > 0) return;
const updated = classes.filter((item) => item.id !== course.id);
```  -/
def handleDeleteClass (assignments : List Assignment) (classes : List Course)
    (course : Course) : List Course :=
  match courseCounts assignments course.name with
  | some (total, _) =>
    if total > 0 then classes else classes.filter fun item => item.id ≠ course.id
  | none => classes.filter fun item => item.id ≠ course.id

/-- The class-list comparator `(a, b) => a.name.localeCompare(b.name)`,
modelled lexicographically. -/
def courseNameLe (a b : Course) : Bool := lexLe a.name.data b.name.data

/-- The per-assignment rewrite of `handleSaveEditClass`
(ErrorBoundary.tsx:520-526): an assignment whose `course` equals the old
class name gets the new name; every other assignment is untouched. -/
def renameAssignmentCourse (oldName newName : String) (a : Assignment) : Assignment :=
  if a.course = oldName then { a with course := newName } else a

/-- Embedding of `handleSaveEditClass` (ErrorBoundary.tsx:498-534), as the
transition on `(classes, assignments)`.  Guards: a blank trimmed name or a
case-insensitive name collision with another class is a no-op.  Otherwise the
edited class record is rewritten and the class list re-sorted, and every
assignment referencing the old name is renamed. -/
def handleSaveEditClass (classes : List Course) (assignments : List Assignment)
    (course : Course) (editingClassName : String) (editingClassDays : List String)
    (editingClassStartTime editingClassEndTime : String) :
    List Course × List Assignment :=
  let name := jsTrim editingClassName
  if name = "" then (classes, assignments)
  else if classes.any fun item =>
      item.id ≠ course.id ∧ jsToLower item.name = jsToLower name then
    (classes, assignments)
  else
    let updated := insertionSort courseNameLe <| classes.map fun item =>
      if item.id = course.id then
        { item with
          name := name
          meetingDays := editingClassDays
          meetingStartTime := editingClassStartTime
          meetingEndTime := editingClassEndTime }
      else item
    (updated, assignments.map (renameAssignmentCourse course.name name))

/-- The assignment form state (`emptyForm` shape, ErrorBoundary.tsx:290-296). -/
structure AForm where
  title : String
  course : String
  dueDate : String
  dueTime : String
  notes : String
deriving DecidableEq, Repr

/-- Embedding of `handleSubmit` (ErrorBoundary.tsx:409-446), as the transition
on the assignment list.  A missing required field is a no-op.  With
`editingId` set, the matching assignment's form fields are rewritten
(`{...item, ...form, title: trim, course: trim}` — status and `completedAt`
come from `item`).  Otherwise a new `Open` assignment with no `completedAt`
is prepended; `newId`/`createdAt` inject `crypto.randomUUID()` and
`new Date().toISOString()`. -/
def handleSubmit (form : AForm) (editingId : Option String)
    (newId createdAt : String) (assignments : List Assignment) : List Assignment :=
  if jsTrim form.title = "" ∨ jsTrim form.course = "" ∨ form.dueDate = "" ∨ form.dueTime = "" then
    assignments
  else
    match editingId with
    | some eid =>
      assignments.map fun item =>
        if item.id = eid then
          { item with
            title := jsTrim form.title
            course := jsTrim form.course
            dueDate := form.dueDate
            dueTime := form.dueTime
            notes := form.notes }
        else item
    | none =>
      { id := newId, title := jsTrim form.title, course := jsTrim form.course,
        dueDate := form.dueDate, dueTime := form.dueTime, status := Status.Open,
        notes := jsTrim form.notes, createdAt := createdAt,
        completedAt := none : Assignment } :: assignments

/-- The per-assignment update of `handleToggleStatus`
(ErrorBoundary.tsx:536-548): on the matching id the status flips, and
`completedAt` is set to the current timestamp on Open -> Done and cleared
(`undefined`) on Done -> Open. -/
def toggleItem (id now : String) (item : Assignment) : Assignment :=
  if item.id = id then
    { item with
      status := if item.status = Status.Open then Status.Done else Status.Open,
      completedAt := if item.status = Status.Open then some now else none }
  else item

/-- Embedding of `handleToggleStatus` (ErrorBoundary.tsx:536-548). -/
def handleToggleStatus (assignments : List Assignment) (id now : String) :
    List Assignment :=
  assignments.map (toggleItem id now)

/-- The `completedAt`-iff-`Done` invariant of the data model. -/
def completedAtInvariant (a : Assignment) : Prop :=
  a.completedAt.isSome ↔ a.status = Status.Done

/-- The condition under which a course actually contributes a class item to
the day view (derived from the source pipeline, for stating C3): the resolved
weekday is a truthy day contained in the course's meeting days, and the
meeting start time parses to a non-null value. -/
def classContributes (ovs : List SchoolOverride) (selectedDate : String)
    (c : Course) : Bool :=
  match weekdayForSelected ovs selectedDate with
  | some w => w ≠ "" && c.meetingDays.contains w && timeToMinutes c.meetingStartTime ≠ none
  | none => false

/-- The `class`-tagged timed items of the day view. -/
def timedClassItems (classes : List Course) (events : List CalendarEvent)
    (ovs : List SchoolOverride) (selectedDate : String) : List TimedItem :=
  (dayViewTimedItems classes events ovs selectedDate).filter
    fun it => it.type = ItemType.cls

/-- The `class`-tagged all-day items of the day view. -/
def allDayClassItems (classes : List Course) (events : List CalendarEvent)
    (ovs : List SchoolOverride) (selectedDate : String) : List AllDayItem :=
  (dayViewAllDayItems classes events ovs selectedDate).filter
    fun it => it.type = ItemType.cls

/-- The minute value of a parsed time string (0 for null/NaN), used to state
the ordering property of the day event list. -/
def minutesVal (s : String) : Int :=
  match timeToMinutes s with
  | some (.int v) => v
  | _ => 0

/-! ### Helper lemmas -/

theorem overrideByDate_foldl_init (x : String) (l : List SchoolOverride)
    (o : SchoolOverride) (init : Option SchoolOverride)
    (h : l.foldl (fun acc v => if v.date = x then some v else acc) none = some o) :
    l.foldl (fun acc v => if v.date = x then some v else acc) init = some o := by
  induction l generalizing init with
  | nil => simp at h
  | cons hd tl ih =>
    simp only [List.foldl_cons] at h ⊢
    by_cases hd.date = x
    · simpa [*] using h
    · simp only [if_neg ‹¬ _›] at h ⊢
      exact ih init h

theorem overrideByDate_append_of_some (pre ovs : List SchoolOverride) (x : String)
    (o : SchoolOverride) (h : overrideByDate ovs x = some o) :
    overrideByDate (pre ++ ovs) x = some o := by
  unfold overrideByDate at h ⊢
  rw [List.foldl_append]
  exact overrideByDate_foldl_init x ovs o _ h

theorem overrideByDate_eq_getLast_filter (ovs : List SchoolOverride) (x : String) :
    overrideByDate ovs x = ((ovs.filter fun o => o.date = x).getLast?) := by
  induction ovs using List.reverseRecOn with
  | nil => rfl
  | append_singleton l a ih =>
    unfold overrideByDate at ih ⊢
    rw [List.foldl_append, List.filter_append]
    by_cases h : a.date = x
    · simp [h, List.getLast?_concat]
    · simp [h, ih]

theorem dChar_toNat {k : Nat} (h : k ≤ 9) : (dChar k).toNat = 48 + k := by
  interval_cases k <;> rfl

theorem dChar_isDigit {k : Nat} (h : k ≤ 9) : (dChar k).isDigit = true := by
  interval_cases k <;> rfl

theorem dChar_ne_dash {k : Nat} (h : k ≤ 9) : dChar k ≠ '-' := by
  interval_cases k <;> decide

theorem dChar_ne_colon {k : Nat} (h : k ≤ 9) : dChar k ≠ ':' := by
  interval_cases k <;> decide

theorem natDigitsAux_spec :
    ∀ fuel n, n < fuel →
      natDigitsAux fuel n ≠ [] ∧
      (∀ c ∈ natDigitsAux fuel n, c.isDigit = true) ∧
      (natDigitsAux fuel n).foldl (fun acc c => acc * 10 + (c.toNat - 48)) 0 = n := by
  intro fuel
  induction fuel with
  | zero => intro n h; omega
  | succ f ih =>
    intro n h
    by_cases h10 : n < 10
    · refine ⟨by simp [natDigitsAux, h10], ?_, ?_⟩
      · intro c hc
        simp only [natDigitsAux, if_pos h10, List.mem_singleton] at hc
        subst hc
        exact dChar_isDigit (by omega)
      · simp only [natDigitsAux, if_pos h10, List.foldl_cons, List.foldl_nil]
        rw [dChar_toNat (by omega)]
        omega
    · have hrec := ih (n / 10) (by omega)
      refine ⟨by simp [natDigitsAux, h10], ?_, ?_⟩
      · intro c hc
        simp only [natDigitsAux, if_neg h10, List.mem_append, List.mem_singleton] at hc
        rcases hc with hc | hc
        · exact hrec.2.1 c hc
        · subst hc
          exact dChar_isDigit (by omega)
      · simp only [natDigitsAux, if_neg h10, List.foldl_append, List.foldl_cons,
          List.foldl_nil, hrec.2.2]
        rw [dChar_toNat (by omega)]
        omega

theorem jsNumber_natRepr (n : Nat) : jsNumber (natRepr n) = some n := by
  obtain ⟨hne, hdig, hval⟩ := natDigitsAux_spec (n + 1) n (by omega)
  unfold jsNumber natRepr
  simp only [if_neg hne, List.all_eq_true]
  rw [if_pos (fun c hc => hdig c hc), hval]

theorem natRepr_lt10 {n : Nat} (h : n < 10) : natRepr n = ⟨[dChar n]⟩ := by
  unfold natRepr
  simp [natDigitsAux, h]

theorem pad2_eq_digits {n : Nat} (h : n ≤ 99) :
    pad2 n = ⟨[dChar (n / 10), dChar (n % 10)]⟩ := by
  unfold pad2
  by_cases h10 : n < 10
  · rw [if_pos h10, natRepr_lt10 h10]
    have h1 : n / 10 = 0 := by omega
    have h2 : n % 10 = n := by omega
    rw [h1, h2]
    rfl
  · rw [if_neg h10]
    unfold natRepr
    obtain ⟨m, rfl⟩ : ∃ m, n = m + 1 := ⟨n - 1, by omega⟩
    simp only [natDigitsAux, if_neg h10]
    have hq : (m + 1) / 10 < 10 := by omega
    obtain ⟨k, hk⟩ : ∃ k, m = k + 9 := ⟨m - 9, by omega⟩
    subst hk
    show String.mk (natDigitsAux (k + 9 + 1) ((k + 9 + 1) / 10) ++ _) = _
    simp [natDigitsAux, show (k + 9 + 1) / 10 < 10 from hq]

theorem jsNumber_pad2 {n : Nat} (h : n ≤ 99) : jsNumber (pad2 n) = some n := by
  rw [pad2_eq_digits h]
  unfold jsNumber
  simp only [List.all_cons, List.all_nil, List.foldl_cons, List.foldl_nil]
  rw [if_neg (by simp)]
  rw [if_pos (by simp [dChar_isDigit (show n / 10 ≤ 9 by omega),
        dChar_isDigit (show n % 10 ≤ 9 by omega)])]
  rw [dChar_toNat (show n / 10 ≤ 9 by omega), dChar_toNat (show n % 10 ≤ 9 by omega)]
  congr 1
  omega

theorem splitOnChar_sepFree (sep : Char) (l : List Char) (h : ∀ c ∈ l, c ≠ sep) :
    splitOnChar sep l = [l] := by
  induction l with
  | nil => rfl
  | cons c t ih =>
    have hc : c ≠ sep := h c (List.mem_cons_self c t)
    have ht := ih fun x hx => h x (List.mem_cons_of_mem c hx)
    simp only [splitOnChar, ht, if_neg hc]

theorem splitOnChar_append_sep (sep : Char) (a rest : List Char)
    (h : ∀ c ∈ a, c ≠ sep) :
    splitOnChar sep (a ++ sep :: rest) = a :: splitOnChar sep rest := by
  induction a with
  | nil => simp [splitOnChar]
  | cons c t ih =>
    have hc : c ≠ sep := h c (List.mem_cons_self c t)
    have ht := ih fun x hx => h x (List.mem_cons_of_mem c hx)
    simp only [List.cons_append, splitOnChar, List.append_eq, ht, if_neg hc]

/-! ### Claim C1 -/

/-- Claim C1: for every date `d`, `scheduleDayForDate` returns `null` when the
override looked up for `d` has kind `no_school`, returns the override's
substitute weekday when its kind is `day_schedule` and a substitute weekday is
present, and otherwise (a `day_schedule` override without a weekday, or no
override) returns `d`'s natural weekday in the Monday=0..Sunday=6 convention
(`DAYS[dayIndex d]`). -/
theorem C1_schedule_day_resolution (ovs : List SchoolOverride) (d : LocalDate) :
    (∀ o, overrideByDate ovs (toISODate d) = some o →
      (o.kind = OverrideKind.no_school → scheduleDayForDate ovs d = none) ∧
      (o.kind = OverrideKind.day_schedule → o.dayOfWeek ≠ "" →
        scheduleDayForDate ovs d = some o.dayOfWeek) ∧
      (o.kind = OverrideKind.day_schedule → o.dayOfWeek = "" →
        scheduleDayForDate ovs d = some (DAYS.getD (dayIndex d) ""))) ∧
    (overrideByDate ovs (toISODate d) = none →
      scheduleDayForDate ovs d = some (DAYS.getD (dayIndex d) "")) := by
  refine ⟨fun o ho => ⟨fun hk => ?_, fun hk hw => ?_, fun hk hw => ?_⟩, fun h => ?_⟩
  · simp [scheduleDayForDate, ho, hk]
  · simp [scheduleDayForDate, ho, hk, hw]
  · simp [scheduleDayForDate, ho, hk, hw]
  · simp [scheduleDayForDate, h]

/-- Witness for C1: a `no_school` override on 2024-01-01 makes the resolver
return `null`; with no override the natural Monday is returned. -/
theorem C1_schedule_day_resolution_witness :
    scheduleDayForDate
        [{ id := "o1", date := "2024-01-01", kind := OverrideKind.no_school,
           dayOfWeek := "", label := "" }] ⟨2024, 1, 1⟩ = none ∧
    scheduleDayForDate [] ⟨2024, 1, 1⟩ = some "Mon" := by
  constructor
  · exact ((C1_schedule_day_resolution _ ⟨2024, 1, 1⟩).1
      { id := "o1", date := "2024-01-01", kind := OverrideKind.no_school,
        dayOfWeek := "", label := "" } (by decide)).1 rfl
  · rw [(C1_schedule_day_resolution [] ⟨2024, 1, 1⟩).2 rfl]
    decide

/-! ### Claim C2 -/

/-- Counterexample to claim C2: starting from no overrides, add a special
day (`day_schedule`, substitute "Fri") for 2025-03-10, then add a no-school
override for the same date.  Both add operations prepend, so the list holds
the newer `no_school` record first; `overrideByDate` is built by a forward
`forEach` over the list in which later elements overwrite earlier ones, so the
lookup yields the *earlier-written* `day_schedule` record, and resolution for
2025-03-10 returns "Fri" instead of the `null` that last-write-wins would
demand. -/
theorem C2_counterexample_first_write_wins :
    handleAddNoSchool ⟨"2025-03-10", "", "Spring Break"⟩ (fun _ => "ns1")
        (handleAddSpecialDay ⟨"2025-03-10", "Fri"⟩ "sd1" []) =
      [{ id := "ns1", date := "2025-03-10", kind := OverrideKind.no_school,
         dayOfWeek := "", label := "Spring Break" },
       { id := "sd1", date := "2025-03-10", kind := OverrideKind.day_schedule,
         dayOfWeek := "Fri", label := "" }] ∧
    overrideByDate
      [{ id := "ns1", date := "2025-03-10", kind := OverrideKind.no_school,
         dayOfWeek := "", label := "Spring Break" },
       { id := "sd1", date := "2025-03-10", kind := OverrideKind.day_schedule,
         dayOfWeek := "Fri", label := "" }] "2025-03-10" =
      some { id := "sd1", date := "2025-03-10", kind := OverrideKind.day_schedule,
             dayOfWeek := "Fri", label := "" } ∧
    scheduleDayForDate
      [{ id := "ns1", date := "2025-03-10", kind := OverrideKind.no_school,
         dayOfWeek := "", label := "Spring Break" },
       { id := "sd1", date := "2025-03-10", kind := OverrideKind.day_schedule,
         dayOfWeek := "Fri", label := "" }] ⟨2025, 3, 10⟩ = some "Fri" :=
  ⟨rfl, rfl, rfl⟩

/-- Claim C2 (amended): when several override records exist for the same ISO
date, the one used for resolution is the last element of the overrides *list*
(`overrideByDate` returns the last match).  Since both add operations prepend
their new records, an override already winning for a date keeps winning after
any further add: for lists built by these operations the *earliest-written*
record wins, not the latest. -/
theorem C2_lookup_is_last_list_match (ovs : List SchoolOverride) (x : String) :
    overrideByDate ovs x = ((ovs.filter fun o => o.date = x).getLast?) ∧
    (∀ o, overrideByDate ovs x = some o →
      (∀ f id, overrideByDate (handleAddSpecialDay f id ovs) x = some o) ∧
      (∀ f idGen, overrideByDate (handleAddNoSchool f idGen ovs) x = some o)) := by
  refine ⟨overrideByDate_eq_getLast_filter ovs x,
          fun o ho => ⟨fun f id => ?_, fun f idGen => ?_⟩⟩
  · unfold handleAddSpecialDay
    by_cases h : f.date = "" ∨ f.dayOfWeek = ""
    · simpa [h] using ho
    · rw [if_neg h]
      exact overrideByDate_append_of_some [_] ovs x o ho
  · unfold handleAddNoSchool
    by_cases h : f.startDate = ""
    · simpa [h] using ho
    · rw [if_neg h]
      cases hs : parseLocalDate f.startDate with
      | none => simpa using ho
      | some s =>
        cases he : parseLocalDate (if f.endDate = "" then f.startDate else f.endDate) with
        | none => simpa using ho
        | some e => exact overrideByDate_append_of_some _ ovs x o ho

/-- Witness for C2 (amended): an existing override for 2025-04-01 still wins
after a special-day record for the same date is prepended. -/
theorem C2_lookup_is_last_list_match_witness :
    overrideByDate
      (handleAddSpecialDay ⟨"2025-04-01", "Tue"⟩ "w2"
        [{ id := "w1", date := "2025-04-01", kind := OverrideKind.no_school,
           dayOfWeek := "", label := "" }]) "2025-04-01" =
      some { id := "w1", date := "2025-04-01", kind := OverrideKind.no_school,
             dayOfWeek := "", label := "" } :=
  ((C2_lookup_is_last_list_match
      [{ id := "w1", date := "2025-04-01", kind := OverrideKind.no_school,
         dayOfWeek := "", label := "" }] "2025-04-01").2 _ rfl).1
    ⟨"2025-04-01", "Tue"⟩ "w2"

theorem stringMk_data (s : String) : String.mk s.data = s := rfl

theorem daysInMonth_le (y m : Nat) : daysInMonth y m ≤ 31 := by
  unfold daysInMonth
  split_ifs <;> omega

theorem isDigit_ne_dash {c : Char} (h : c.isDigit = true) : c ≠ '-' := by
  intro hc
  subst hc
  simp [Char.isDigit] at h

theorem isDigit_ne_colon {c : Char} (h : c.isDigit = true) : c ≠ ':' := by
  intro hc
  subst hc
  simp [Char.isDigit] at h

theorem natRepr_digits (n : Nat) : ∀ c ∈ (natRepr n).data, c.isDigit = true :=
  (natDigitsAux_spec (n + 1) n (by omega)).2.1

theorem pad2_digits {n : Nat} (h : n ≤ 99) : ∀ c ∈ (pad2 n).data, c.isDigit = true := by
  rw [pad2_eq_digits h]
  intro c hc
  simp only [List.mem_cons, List.not_mem_nil, or_false] at hc
  rcases hc with rfl | rfl
  · exact dChar_isDigit (by omega)
  · exact dChar_isDigit (by omega)

/-! ### Claim C5 -/

theorem parseLocalDate_toISODate (y m d : Nat) (hy : 100 ≤ y)
    (hm1 : 1 ≤ m) (hm2 : m ≤ 12) (hd1 : 1 ≤ d) (hd2 : d ≤ daysInMonth y m) :
    parseLocalDate (toISODate ⟨y, m, d⟩) = some ⟨y, m, d⟩ := by
  have hA : ∀ c ∈ (natRepr y).data, c ≠ '-' :=
    fun c hc => isDigit_ne_dash (natRepr_digits y c hc)
  have hB : ∀ c ∈ (pad2 m).data, c ≠ '-' :=
    fun c hc => isDigit_ne_dash (pad2_digits (by omega) c hc)
  have hd99 : d ≤ 99 := by
    have := daysInMonth_le y m
    omega
  have hC : ∀ c ∈ (pad2 d).data, c ≠ '-' :=
    fun c hc => isDigit_ne_dash (pad2_digits hd99 c hc)
  have hdata : (toISODate ⟨y, m, d⟩).data =
      (natRepr y).data ++ '-' :: ((pad2 m).data ++ '-' :: (pad2 d).data) := by
    simp [toISODate, String.data_append]
  have hsplit : splitOnChar '-' ((toISODate ⟨y, m, d⟩).data) =
      [(natRepr y).data, (pad2 m).data, (pad2 d).data] := by
    rw [hdata, splitOnChar_append_sep _ _ _ hA, splitOnChar_append_sep _ _ _ hB,
      splitOnChar_sepFree _ _ hC]
  have hremap : remapYear y = y := by
    unfold remapYear
    rw [if_neg (by omega)]
  unfold parseLocalDate jsSplit
  rw [hsplit]
  simp only [List.map_cons, List.map_nil, stringMk_data]
  have h0 : [natRepr y, pad2 m, pad2 d].get? 0 = some (natRepr y) := rfl
  have h1 : [natRepr y, pad2 m, pad2 d].get? 1 = some (pad2 m) := rfl
  have h2 : [natRepr y, pad2 m, pad2 d].get? 2 = some (pad2 d) := rfl
  rw [h0, h1, h2, Option.some_bind, Option.some_bind, Option.some_bind,
    jsNumber_natRepr, jsNumber_pad2 (show m ≤ 99 by omega), jsNumber_pad2 hd99]
  simp only [hremap]
  rw [if_pos ⟨hm1, hm2, hd1, hd2⟩]

/-- Counterexample to claim C5: the well-formed date string "0999-01-01"
denotes the valid date 999-01-01, but `toISODate` does not zero-pad the year,
so the round trip yields "999-01-01", not the original string. -/
theorem C5_counterexample_year_padding :
    (parseLocalDate "0999-01-01").map toISODate = some "999-01-01" ∧
    "999-01-01" ≠ "0999-01-01" :=
  ⟨rfl, by decide⟩

/-- Claim C5 (amended): the parse/format round trip
`toISODate (parseCalendarDate s) = s` holds for every well-formed
"YYYY-MM-DD" string denoting a valid calendar date whose year part is in
1000..9999 (for years below 1000 the unpadded year breaks the round trip, and
years 0..99 are additionally remapped to 1900..1999 by the `Date`
constructor). -/
theorem C5_iso_round_trip (y m d : Nat) (hy1 : 1000 ≤ y) (hy2 : y ≤ 9999)
    (hm1 : 1 ≤ m) (hm2 : m ≤ 12) (hd1 : 1 ≤ d) (hd2 : d ≤ daysInMonth y m) :
    parseLocalDate (toISODate ⟨y, m, d⟩) = some ⟨y, m, d⟩ ∧
    (parseLocalDate (toISODate ⟨y, m, d⟩)).map toISODate =
      some (toISODate ⟨y, m, d⟩) := by
  have h := parseLocalDate_toISODate y m d (by omega) hm1 hm2 hd1 hd2
  exact ⟨h, by rw [h, Option.map_some']⟩

/-- Witness for C5 (amended): the round trip on "2024-02-29". -/
theorem C5_iso_round_trip_witness :
    parseLocalDate "2024-02-29" = some ⟨2024, 2, 29⟩ ∧
    (parseLocalDate "2024-02-29").map toISODate = some "2024-02-29" :=
  (C5_iso_round_trip 2024 2 29 (by decide) (by decide) (by decide) (by decide)
    (by decide) (by decide))

/-! ### Claim C6 -/

theorem minutesToTime_eq_timeStr (h m : Nat) (hh : h ≤ 23) (hm : m ≤ 59) :
    minutesToTime ((h : Int) * 60 + m) = timeStr h m := by
  rw [show minutesToTime ((h : Int) * 60 + m) =
        pad2 ((max 0 (min (23 * 60 + 59) ((h : Int) * 60 + m))).toNat / 60) ++ ":" ++
          pad2 ((max 0 (min (23 * 60 + 59) ((h : Int) * 60 + m))).toNat % 60) from rfl]
  have h1 : (max 0 (min (23 * 60 + 59) ((h : Int) * 60 + m))).toNat = h * 60 + m := by
    omega
  rw [h1]
  have h2 : (h * 60 + m) / 60 = h := by omega
  have h3 : (h * 60 + m) % 60 = m := by omega
  rw [h2, h3, pad2_eq_digits (show h ≤ 99 by omega), pad2_eq_digits (show m ≤ 99 by omega)]
  rfl

theorem timeToMinutes_timeStr (h m : Nat) (hh : h ≤ 23) (hm : m ≤ 59) :
    timeToMinutes (timeStr h m) = some (JsNum.int (h * 60 + m)) := by
  have hne : timeStr h m ≠ "" := by
    simp [timeStr, String.ext_iff]
  have hfirst : ∀ c ∈ [dChar (h / 10), dChar (h % 10)], c ≠ ':' := by
    intro c hc
    simp only [List.mem_cons, List.not_mem_nil, or_false] at hc
    rcases hc with rfl | rfl
    · exact dChar_ne_colon (by omega)
    · exact dChar_ne_colon (by omega)
  have hsecond : ∀ c ∈ [dChar (m / 10), dChar (m % 10)], c ≠ ':' := by
    intro c hc
    simp only [List.mem_cons, List.not_mem_nil, or_false] at hc
    rcases hc with rfl | rfl
    · exact dChar_ne_colon (by omega)
    · exact dChar_ne_colon (by omega)
  have hsplit : splitOnChar ':' (timeStr h m).data =
      [[dChar (h / 10), dChar (h % 10)], [dChar (m / 10), dChar (m % 10)]] := by
    show splitOnChar ':' ([dChar (h / 10), dChar (h % 10)] ++
      ':' :: [dChar (m / 10), dChar (m % 10)]) = _
    rw [splitOnChar_append_sep _ _ _ hfirst, splitOnChar_sepFree _ _ hsecond]
  unfold timeToMinutes jsSplit
  rw [if_neg hne, hsplit]
  simp only [List.map_cons, List.map_nil]
  rw [show (String.mk [dChar (h / 10), dChar (h % 10)]) = pad2 h from
        (pad2_eq_digits (show h ≤ 99 by omega)).symm,
      show (String.mk [dChar (m / 10), dChar (m % 10)]) = pad2 m from
        (pad2_eq_digits (show m ≤ 99 by omega)).symm]
  have h0 : [pad2 h, pad2 m].get? 0 = some (pad2 h) := rfl
  have h1 : [pad2 h, pad2 m].get? 1 = some (pad2 m) := rfl
  rw [h0, h1, Option.map_some', Option.map_some',
    jsNumber_pad2 (show h ≤ 99 by omega), jsNumber_pad2 (show m ≤ 99 by omega)]

/-- Counterexample to claim C6's description of `timeToMinutes` on arbitrary
input: "12" is neither empty nor a parseable "HH:MM" time, yet the function
returns NaN rather than null — the destructured minutes component is
`undefined`, `Number.isNaN(undefined)` is `false`, so the guard passes and
`12 * 60 + undefined` evaluates to NaN. -/
theorem C6_counterexample_no_colon_nan :
    timeToMinutes "12" = some JsNum.nan ∧ timeToMinutes "12" ≠ none :=
  ⟨rfl, by decide⟩

/-- Claim C6 (amended): the "HH:MM" round trip holds (both directions, for
hours in 0..23 and minutes in 0..59), and `minutesToTime` clamps its argument
into [0, 1439] before formatting.  `timeToMinutes` returns null on empty input
and on any input one of whose first two ":"-separated components is
non-numeric; but an input containing no ":" at all whose sole component is
numeric yields NaN (not null); with two numeric components it returns
`hh * 60 + mm`. -/
theorem C6_time_conversions :
    (∀ h m : Nat, h ≤ 23 → m ≤ 59 →
      timeToMinutes (timeStr h m) = some (JsNum.int (h * 60 + m)) ∧
      minutesToTime ((h : Int) * 60 + m) = timeStr h m) ∧
    (∀ n : Int, minutesToTime n = minutesToTime (max 0 (min 1439 n)) ∧
      0 ≤ max 0 (min 1439 n) ∧ max 0 (min 1439 n) ≤ 1439) ∧
    (timeToMinutes "" = none) ∧
    (∀ s, s ≠ "" →
      (∀ p1, (jsSplit ':' s)[0]? = some p1 → jsNumber p1 = none →
        timeToMinutes s = none) ∧
      (∀ p1 p2, (jsSplit ':' s)[0]? = some p1 →
        (jsSplit ':' s)[1]? = some p2 → jsNumber p2 = none →
        timeToMinutes s = none) ∧
      (∀ p1 k, (jsSplit ':' s)[0]? = some p1 → (jsSplit ':' s)[1]? = none →
        jsNumber p1 = some k → timeToMinutes s = some JsNum.nan) ∧
      (∀ p1 p2 k1 k2, (jsSplit ':' s)[0]? = some p1 →
        (jsSplit ':' s)[1]? = some p2 → jsNumber p1 = some k1 →
        jsNumber p2 = some k2 →
        timeToMinutes s = some (JsNum.int (k1 * 60 + k2)))) := by
  refine ⟨fun h m hh hm => ⟨timeToMinutes_timeStr h m hh hm,
            minutesToTime_eq_timeStr h m hh hm⟩,
          fun n => ⟨?_, by omega, by omega⟩, rfl, fun s hs => ?_⟩
  · unfold minutesToTime
    have key : max 0 (min (23 * 60 + 59 : Int) n) =
        max 0 (min (23 * 60 + 59 : Int) (max 0 (min 1439 n))) := by omega
    rw [key]
  · refine ⟨fun p1 e1 j1 => ?_, fun p1 p2 e1 e2 j2 => ?_,
            fun p1 k e1 e2 j1 => ?_, fun p1 p2 k1 k2 e1 e2 j1 j2 => ?_⟩
    · unfold timeToMinutes
      rw [if_neg hs]
      cases e2 : (jsSplit ':' s)[1]? with
      | none => simp [e1, j1, e2]
      | some p2 =>
        cases j2 : jsNumber p2 <;> simp [e1, j1, e2, j2]
    · unfold timeToMinutes
      rw [if_neg hs]
      cases j1 : jsNumber p1 <;> simp [e1, j1, e2, j2]
    · unfold timeToMinutes
      rw [if_neg hs]
      simp [e1, e2, j1]
    · unfold timeToMinutes
      rw [if_neg hs]
      simp [e1, e2, j1, j2]

/-- Witness for C6 (amended): the round trip on "09:30". -/
theorem C6_time_conversions_witness :
    timeToMinutes "09:30" = some (JsNum.int 570) ∧ minutesToTime 570 = "09:30" := by
  have h := C6_time_conversions.1 9 30 (by decide) (by decide)
  exact ⟨h.1, h.2⟩

/-! ### Claim C7 -/

theorem lexLe_total : ∀ a b : List Char, lexLe a b = true ∨ lexLe b a = true := by
  intro a
  induction a with
  | nil => intro b; left; rfl
  | cons x xs ih =>
    intro b
    cases b with
    | nil => right; rfl
    | cons y ys =>
      simp only [lexLe, Bool.or_eq_true, Bool.and_eq_true, decide_eq_true_eq]
      rcases Nat.lt_trichotomy x.toNat y.toNat with h | h | h
      · left; left; exact h
      · rcases ih ys with hi | hi
        · left; right; exact ⟨h, hi⟩
        · right; right; exact ⟨h.symm, hi⟩
      · right; left; exact h

theorem lexLe_trans : ∀ a b c : List Char,
    lexLe a b = true → lexLe b c = true → lexLe a c = true := by
  intro a
  induction a with
  | nil => intro b c _ _; rfl
  | cons x xs ih =>
    intro b c hab hbc
    cases b with
    | nil => simp [lexLe] at hab
    | cons y ys =>
      cases c with
      | nil => simp [lexLe] at hbc
      | cons z zs =>
        simp only [lexLe, Bool.or_eq_true, Bool.and_eq_true,
          decide_eq_true_eq] at hab hbc ⊢
        rcases hab with hab | ⟨hab, hab'⟩
        · rcases hbc with hbc | ⟨hbc, _⟩
          · left; omega
          · left; omega
        · rcases hbc with hbc | ⟨hbc, hbc'⟩
          · left; omega
          · right; exact ⟨by omega, ih ys zs hab' hbc'⟩

theorem evLe_total (a b : CalendarEvent) : evLe a b = true ∨ evLe b a = true :=
  lexLe_total _ _

theorem evLe_trans (a b c : CalendarEvent)
    (h1 : evLe a b = true) (h2 : evLe b c = true) : evLe a c = true :=
  lexLe_trans _ _ _ h1 h2

theorem insertSorted_perm (le : α → α → Bool) (x : α) :
    ∀ l : List α, List.Perm (insertSorted le x l) (x :: l) := by
  intro l
  induction l with
  | nil => exact List.Perm.refl _
  | cons y ys ih =>
    unfold insertSorted
    by_cases h : le x y = true
    · rw [if_pos h]
    · rw [if_neg h]
      exact (ih.cons y).trans (List.Perm.swap x y ys)

theorem insertionSort_perm (le : α → α → Bool) :
    ∀ l : List α, List.Perm (insertionSort le l) l := by
  intro l
  induction l with
  | nil => exact List.Perm.refl _
  | cons y ys ih =>
    show List.Perm (insertSorted le y (insertionSort le ys)) _
    exact (insertSorted_perm le y _).trans (ih.cons y)

theorem mem_insertSorted {le : α → α → Bool} {x z : α} {l : List α}
    (h : z ∈ insertSorted le x l) : z = x ∨ z ∈ l := by
  have := (insertSorted_perm le x l).mem_iff.1 h
  simpa using this

theorem pairwise_insertSorted {le : α → α → Bool}
    (htotal : ∀ a b, le a b = true ∨ le b a = true)
    (htrans : ∀ a b c, le a b = true → le b c = true → le a c = true)
    (x : α) :
    ∀ l : List α, l.Pairwise (fun a b => le a b = true) →
      (insertSorted le x l).Pairwise (fun a b => le a b = true) := by
  intro l
  induction l with
  | nil => intro _; simp [insertSorted]
  | cons y ys ih =>
    intro hp
    rw [List.pairwise_cons] at hp
    unfold insertSorted
    by_cases h : le x y = true
    · rw [if_pos h, List.pairwise_cons]
      refine ⟨?_, List.pairwise_cons.2 hp⟩
      intro z hz
      rcases List.mem_cons.1 hz with rfl | hz
      · exact h
      · exact htrans x y z h (hp.1 z hz)
    · rw [if_neg h, List.pairwise_cons]
      have hyx : le y x = true := (htotal x y).resolve_left h
      refine ⟨?_, ih hp.2⟩
      intro z hz
      rcases mem_insertSorted hz with rfl | hz
      · exact hyx
      · exact hp.1 z hz

theorem pairwise_insertionSort {le : α → α → Bool}
    (htotal : ∀ a b, le a b = true ∨ le b a = true)
    (htrans : ∀ a b c, le a b = true → le b c = true → le a c = true) :
    ∀ l : List α, (insertionSort le l).Pairwise (fun a b => le a b = true) := by
  intro l
  induction l with
  | nil => simp [insertionSort]
  | cons y ys ih =>
    exact pairwise_insertSorted htotal htrans y _ ih

theorem minutesVal_timeStr {h m : Nat} (hh : h ≤ 23) (hm : m ≤ 59) :
    minutesVal (timeStr h m) = h * 60 + m := by
  unfold minutesVal
  rw [timeToMinutes_timeStr h m hh hm]

theorem timeStr_ne_empty (h m : Nat) : timeStr h m ≠ "" := by
  simp [timeStr, String.ext_iff]

theorem lexLe_sentinel_timeStr {h m : Nat} (hh : h ≤ 23) :
    lexLe ("99:99").data (timeStr h m).data = false := by
  have e1 := dChar_toNat (show h / 10 ≤ 9 by omega)
  show lexLe ['9', '9', ':', '9', '9'] _ = false
  simp only [timeStr, lexLe]
  simp only [show ('9' : Char).toNat = 57 from rfl, e1]
  have c1 : ¬ (57 < 48 + h / 10) := by omega
  have c2 : ¬ (57 = 48 + h / 10) := by omega
  simp [c1, c2]

theorem lexLe_timeStr_le {h1 m1 h2 m2 : Nat}
    (b1 : h1 ≤ 23) (b2 : m1 ≤ 59) (b3 : h2 ≤ 23) (b4 : m2 ≤ 59)
    (hlex : lexLe (timeStr h1 m1).data (timeStr h2 m2).data = true) :
    h1 * 60 + m1 ≤ h2 * 60 + m2 := by
  have e1 := dChar_toNat (show h1 / 10 ≤ 9 by omega)
  have e2 := dChar_toNat (show h1 % 10 ≤ 9 by omega)
  have e3 := dChar_toNat (show m1 / 10 ≤ 9 by omega)
  have e4 := dChar_toNat (show m1 % 10 ≤ 9 by omega)
  have e5 := dChar_toNat (show h2 / 10 ≤ 9 by omega)
  have e6 := dChar_toNat (show h2 % 10 ≤ 9 by omega)
  have e7 := dChar_toNat (show m2 / 10 ≤ 9 by omega)
  have e8 := dChar_toNat (show m2 % 10 ≤ 9 by omega)
  simp only [timeStr, lexLe, e1, e2, e3, e4, e5, e6, e7, e8,
    show (':' : Char).toNat = 58 from rfl, Bool.or_eq_true, Bool.and_eq_true,
    decide_eq_true_eq] at hlex
  omega

/-- Claim C7: the per-date day event list (`eventsByDate.get(date)`) is
sorted by time-of-day ascending, with untimed events (empty time) after every
timed event — the comparator key replaces an empty time by the sentinel
"99:99", lexicographically greater than every valid "HH:MM".  The statement
assumes each event's time is empty or a valid zero-padded "HH:MM" (the shape
the time form input produces). -/
theorem C7_day_events_sorted (events : List CalendarEvent) (date : String)
    (hwf : ∀ e ∈ events, e.time = "" ∨
      ∃ hh mm, hh ≤ 23 ∧ mm ≤ 59 ∧ e.time = timeStr hh mm) :
    (eventsOnDate events date).Pairwise fun a b =>
      b.time = "" ∨ (a.time ≠ "" ∧ minutesVal a.time ≤ minutesVal b.time) := by
  have hperm : List.Perm (eventsOnDate events date)
      (events.filter fun e => e.date = date) :=
    insertionSort_perm evLe _
  have hsorted : (eventsOnDate events date).Pairwise fun a b => evLe a b = true :=
    pairwise_insertionSort evLe_total evLe_trans _
  refine hsorted.imp_of_mem ?_
  intro a b ha hb hle
  have hwa := hwf a (List.mem_of_mem_filter (hperm.mem_iff.1 ha))
  have hwb := hwf b (List.mem_of_mem_filter (hperm.mem_iff.1 hb))
  by_cases hbz : b.time = ""
  · exact Or.inl hbz
  · rcases hwb with hwb | ⟨h2, m2, hh2, hm2, hbt⟩
    · exact absurd hwb hbz
    right
    rcases hwa with hwa | ⟨h1, m1, hh1, hm1, hat⟩
    · exfalso
      unfold evLe evSortKey at hle
      rw [if_pos hwa, if_neg hbz, hbt] at hle
      rw [lexLe_sentinel_timeStr hh2] at hle
      exact Bool.false_ne_true hle
    · constructor
      · rw [hat]; exact timeStr_ne_empty h1 m1
      · unfold evLe evSortKey at hle
        rw [if_neg (by rw [hat]; exact timeStr_ne_empty h1 m1), if_neg hbz,
          hat, hbt] at hle
        rw [hat, hbt, minutesVal_timeStr hh1 hm1, minutesVal_timeStr hh2 hm2]
        have := lexLe_timeStr_le hh1 hm1 hh2 hm2 hle
        omega

/-- Witness for C7: on 2024-01-01, an untimed event listed before a "09:00"
event sorts after it: the sorted day list is [the 09:00 event, the untimed
event], and it satisfies the ordering property. -/
theorem C7_day_events_sorted_witness :
    (eventsOnDate
        [⟨"e1", "Untimed", "", "2024-01-01", "", "", ""⟩,
         ⟨"e2", "Nine", "", "2024-01-01", "09:00", "", ""⟩] "2024-01-01").Pairwise
      (fun a b => b.time = "" ∨
        (a.time ≠ "" ∧ minutesVal a.time ≤ minutesVal b.time)) ∧
    eventsOnDate
        [⟨"e1", "Untimed", "", "2024-01-01", "", "", ""⟩,
         ⟨"e2", "Nine", "", "2024-01-01", "09:00", "", ""⟩] "2024-01-01" =
      [⟨"e2", "Nine", "", "2024-01-01", "09:00", "", ""⟩,
       ⟨"e1", "Untimed", "", "2024-01-01", "", "", ""⟩] := by
  constructor
  · refine C7_day_events_sorted _ _ ?_
    intro e he
    simp only [List.mem_cons, List.not_mem_nil, or_false] at he
    rcases he with rfl | rfl
    · exact Or.inl rfl
    · exact Or.inr ⟨9, 0, by decide, by decide, rfl⟩
  · rfl

/-! ### Claims C3 and C4 -/

theorem eventTimed_type (eventsToday : List CalendarEvent) :
    ∀ it ∈ eventsToday.map mkEventTimed, it.type = ItemType.evt := by
  intro it hit
  rcases List.mem_map.1 hit with ⟨e, _, rfl⟩
  rfl

theorem filter_cls_of_evt {l : List TimedItem}
    (h : ∀ it ∈ l, it.type = ItemType.evt) :
    l.filter (fun it => it.type = ItemType.cls) = [] := by
  rw [List.filter_eq_nil_iff]
  intro it hit
  simp [h it hit]

theorem dayViewRecurring_not_bothEmpty (classes : List Course) (wk : Option String) :
    ∀ c ∈ dayViewRecurring classes wk,
      ¬ (c.meetingStartTime = "" && c.meetingEndTime = "") = true := by
  intro c hc
  simp only [dayViewRecurring, List.mem_filter, Bool.and_eq_true] at hc
  have := hc.2.2
  simp only [Bool.or_eq_true, decide_eq_true_eq] at this
  simp only [Bool.and_eq_true, decide_eq_true_eq]
  rintro ⟨h1, h2⟩
  rcases this with h | h <;> exact h (by assumption)

/-- Counterexample to claim C3: the course "Hist" meets on Mon, 2024-01-01 is
a natural Monday with no overrides (resolved weekday "Mon"), yet the day view
contains no class item for it — the course has only an end time, so it passes
the `recurring` gate but its null start minute is filtered out of the timed
items, and the all-day branch requires both times absent. -/
theorem C3_counterexample_end_only_course :
    weekdayForSelected [] "2024-01-01" = some "Mon" ∧
    (⟨"c3", "Hist", ["Mon"], "", "10:00"⟩ : Course).meetingDays.contains "Mon" = true ∧
    timedClassItems [⟨"c3", "Hist", ["Mon"], "", "10:00"⟩] [] [] "2024-01-01" = [] ∧
    allDayClassItems [⟨"c3", "Hist", ["Mon"], "", "10:00"⟩] [] [] "2024-01-01" = [] :=
  ⟨rfl, rfl, rfl, rfl⟩

/-- Claim C3 (amended): in the day view for a date, the class items are
exactly the timed items of the courses whose meeting-days set contains the
(non-null, non-empty) resolved weekday AND whose meeting start time parses to
a non-null minute value (`classContributes`); class items never appear among
the all-day items.  In particular a `no_school` override (resolved weekday
null) yields zero class items, but a matching course without a parseable
start time — e.g. with no times at all, or with only an end time — also
yields none, contrary to the original iff. -/
theorem C3_class_items_characterization (classes : List Course)
    (events : List CalendarEvent) (ovs : List SchoolOverride)
    (selectedDate : String) :
    timedClassItems classes events ovs selectedDate =
      (classes.filter (classContributes ovs selectedDate)).map mkClassTimed ∧
    allDayClassItems classes events ovs selectedDate = [] := by
  constructor
  · simp only [timedClassItems, dayViewTimedItems]
    rw [List.filter_append, List.filter_append]
    rw [filter_cls_of_evt (fun it hit =>
      eventTimed_type _ it (List.mem_of_mem_filter hit))]
    rw [List.append_nil]
    rw [List.filter_eq_self.2 (by
      intro it hit
      rcases List.mem_map.1 (List.mem_of_mem_filter hit) with ⟨c, _, rfl⟩
      simp [mkClassTimed])]
    rw [List.filter_map]
    simp only [dayViewRecurring]
    rw [List.filter_filter]
    rw [show (classes.filter (classContributes ovs selectedDate)).map mkClassTimed =
      List.map mkClassTimed (classes.filter (classContributes ovs selectedDate)) from rfl]
    congr 1
    apply List.filter_congr
    intro c _
    simp only [Function.comp_apply, classContributes]
    cases hw : weekdayForSelected ovs selectedDate with
    | none => simp
    | some w =>
      by_cases hs : c.meetingStartTime = ""
      · simp [mkClassTimed, hs, timeToMinutes]
      · simp only [mkClassTimed]
        cases hcont : (decide ¬w = "" && c.meetingDays.contains w) <;>
          simp_all [Bool.and_comm]
  · have hrec : (dayViewRecurring classes (weekdayForSelected ovs selectedDate)).filter
        (fun c => c.meetingStartTime = "" && c.meetingEndTime = "") = [] :=
      List.filter_eq_nil_iff.2 (dayViewRecurring_not_bothEmpty _ _)
    simp only [allDayClassItems, dayViewAllDayItems, hrec, List.map_nil,
      List.nil_append]
    rw [List.filter_eq_nil_iff]
    intro it hit
    rcases List.mem_map.1 hit with ⟨e, _, rfl⟩
    simp

/-- A meeting-day match with no meeting times yields no day-view item at all:
on natural Monday 2024-01-01, the timeless course "Math" meeting on Mon
produces neither a timed class item nor the all-day class item the spec
promises — the all-day class branch draws from `recurring`, whose gate
`(meetingStartTime || meetingEndTime)` excludes every timeless course, so
that branch is dead code. -/
theorem C4_allday_class_item_missing :
    weekdayForSelected [] "2024-01-01" = some "Mon" ∧
    (⟨"c1", "Math", ["Mon"], "", ""⟩ : Course).meetingDays.contains "Mon" = true ∧
    dayViewTimedItems [⟨"c1", "Math", ["Mon"], "", ""⟩] [] [] "2024-01-01" = [] ∧
    dayViewAllDayItems [⟨"c1", "Math", ["Mon"], "", ""⟩] [] [] "2024-01-01" = [] :=
  ⟨rfl, rfl, rfl, rfl⟩

/-! ### Claim C8 -/

/-- Claim C8: deleting a course no assignment references removes exactly the
records with that course's id from the class list (the `courseCounts` entry is
absent, so the guard passes); deleting a course referenced by at least one
assignment is refused and the class list is returned unchanged. -/
theorem C8_delete_class_reference_guard (assignments : List Assignment)
    (classes : List Course) (course : Course) :
    ((∀ a ∈ assignments, a.course ≠ course.name) →
      handleDeleteClass assignments classes course =
        classes.filter fun c => c.id ≠ course.id) ∧
    ((∃ a ∈ assignments, a.course = course.name) →
      handleDeleteClass assignments classes course = classes) := by
  constructor
  · intro h
    have hf : assignments.filter (fun a => a.course = course.name) = [] := by
      simp only [List.filter_eq_nil_iff, decide_eq_true_eq]
      exact h
    simp [handleDeleteClass, courseCounts, hf]
  · rintro ⟨a, ha, hc⟩
    have hf : assignments.filter (fun a => a.course = course.name) ≠ [] := by
      intro hnil
      rw [List.filter_eq_nil_iff] at hnil
      exact hnil a ha (by simpa using hc)
    have hlen : (assignments.filter fun a => a.course = course.name).length ≠ 0 := by
      simpa [List.length_eq_zero] using hf
    simp [handleDeleteClass, courseCounts, hlen]

/-- Witness for C8: with no referencing assignment the course is removed;
with one referencing assignment the list is unchanged. -/
theorem C8_delete_class_reference_guard_witness :
    handleDeleteClass []
        [{ id := "c9", name := "CS 1", meetingDays := [], meetingStartTime := "",
           meetingEndTime := "" }]
        { id := "c9", name := "CS 1", meetingDays := [], meetingStartTime := "",
          meetingEndTime := "" } = [] ∧
    handleDeleteClass
        [{ id := "a1", title := "HW", course := "CS 1", dueDate := "2024-01-05",
           dueTime := "10:00", status := Status.Open, notes := "", createdAt := "",
           completedAt := none }]
        [{ id := "c9", name := "CS 1", meetingDays := [], meetingStartTime := "",
           meetingEndTime := "" }]
        { id := "c9", name := "CS 1", meetingDays := [], meetingStartTime := "",
          meetingEndTime := "" } =
      [{ id := "c9", name := "CS 1", meetingDays := [], meetingStartTime := "",
         meetingEndTime := "" }] := by
  constructor
  · rw [(C8_delete_class_reference_guard [] _ _).1 (by simp)]
    decide
  · exact (C8_delete_class_reference_guard _ _ _).2
      ⟨_, List.mem_singleton_self _, rfl⟩

/-! ### Claim C9 -/

/-- Claim C9: assignment creation, edit-save and status toggling preserve the
invariant that `completedAt` is present iff the status is `Done`; the toggle
sets `completedAt` on the Open -> Done transition and clears it on
Done -> Open; creation produces an `Open` assignment with no `completedAt`,
and edit-save never touches status or `completedAt`. -/
theorem C9_completedAt_invariant_preserved (assignments : List Assignment)
    (form : AForm) (editingId : Option String) (newId createdAt id now : String)
    (hinv : ∀ a ∈ assignments, completedAtInvariant a) :
    (∀ a ∈ handleSubmit form editingId newId createdAt assignments,
      completedAtInvariant a) ∧
    (∀ a ∈ handleToggleStatus assignments id now, completedAtInvariant a) ∧
    (∀ a, a.id = id → a.status = Status.Open →
      toggleItem id now a =
        { a with status := Status.Done, completedAt := some now }) ∧
    (∀ a, a.id = id → a.status = Status.Done →
      toggleItem id now a =
        { a with status := Status.Open, completedAt := none }) := by
  refine ⟨?_, ?_, ?_, ?_⟩
  · intro a ha
    unfold handleSubmit at ha
    split at ha
    · exact hinv a ha
    · split at ha
      · rcases List.mem_map.1 ha with ⟨b, hb, rfl⟩
        have := hinv b hb
        unfold completedAtInvariant at this ⊢
        split
        · simpa using this
        · exact this
      · rcases ha with _ | ⟨_, hb⟩
        · simp [completedAtInvariant]
        · exact hinv _ hb
  · intro a ha
    rcases List.mem_map.1 ha with ⟨b, hb, rfl⟩
    have := hinv b hb
    unfold completedAtInvariant at this ⊢
    unfold toggleItem
    split
    · rcases hs : b.status with _ | _ <;> simp [hs]
    · exact this
  · intro a hid hs
    unfold toggleItem
    rw [if_pos hid, hs]
    simp
  · intro a hid hs
    unfold toggleItem
    rw [if_pos hid, hs]
    simp

/-- Witness for C9: toggling an `Open` assignment yields `Done` with a
completion timestamp, and the result of a toggle satisfies the invariant. -/
theorem C9_completedAt_invariant_preserved_witness :
    toggleItem "a1" "2024-01-01T00:00:00Z"
        { id := "a1", title := "HW", course := "CS", dueDate := "2024-01-05",
          dueTime := "10:00", status := Status.Open, notes := "", createdAt := "",
          completedAt := none } =
      { id := "a1", title := "HW", course := "CS", dueDate := "2024-01-05",
        dueTime := "10:00", status := Status.Done, notes := "", createdAt := "",
        completedAt := some "2024-01-01T00:00:00Z" } :=
  (C9_completedAt_invariant_preserved
      [{ id := "a1", title := "HW", course := "CS", dueDate := "2024-01-05",
         dueTime := "10:00", status := Status.Open, notes := "", createdAt := "",
         completedAt := none }]
      ⟨"", "", "", "", ""⟩ none "" "" "a1" "2024-01-01T00:00:00Z"
      (by intro a ha; rw [List.mem_singleton] at ha; subst ha
          simp [completedAtInvariant])).2.2.1 _ rfl rfl

/-! ### Claim C10 -/

/-- Claim C10: saving a class rename with a valid name (non-blank after
trimming, no case-insensitive duplicate among the other classes) rewrites, in
the same operation, the `course` field of exactly the assignments whose course
equals the old class name to the trimmed new name, and leaves every other
assignment — and every other field of the rewritten assignments — unchanged. -/
theorem C10_rename_rewrites_assignments (classes : List Course)
    (assignments : List Assignment) (course : Course) (editingClassName : String)
    (days : List String) (st et : String)
    (h1 : jsTrim editingClassName ≠ "")
    (h2 : ¬ ∃ item ∈ classes,
        item.id ≠ course.id ∧ jsToLower item.name = jsToLower (jsTrim editingClassName)) :
    ∀ i : Nat, ∀ a,
      assignments[i]? = some a →
      (a.course = course.name →
        (handleSaveEditClass classes assignments course editingClassName days st et).2[i]? =
          some { a with course := jsTrim editingClassName }) ∧
      (a.course ≠ course.name →
        (handleSaveEditClass classes assignments course editingClassName days st et).2[i]? =
          some a) := by
  intro i a ha
  have hguard : ¬ classes.any fun item =>
      item.id ≠ course.id ∧ jsToLower item.name = jsToLower (jsTrim editingClassName) := by
    simpa [List.any_eq_true] using h2
  unfold handleSaveEditClass
  rw [if_neg h1, if_neg hguard]
  simp only [List.getElem?_map, ha, Option.map_some']
  constructor
  · intro hc
    simp [renameAssignmentCourse, hc]
  · intro hc
    simp [renameAssignmentCourse, hc]

/-- Witness for C10: renaming "CS 1" to "CS One" rewrites a referencing
assignment's course and leaves a non-referencing assignment unchanged. -/
theorem C10_rename_rewrites_assignments_witness :
    (handleSaveEditClass
        [{ id := "c9", name := "CS 1", meetingDays := [], meetingStartTime := "",
           meetingEndTime := "" }]
        [{ id := "a1", title := "HW", course := "CS 1", dueDate := "",
           dueTime := "", status := Status.Open, notes := "", createdAt := "",
           completedAt := none },
         { id := "a2", title := "Essay", course := "Lit", dueDate := "",
           dueTime := "", status := Status.Open, notes := "", createdAt := "",
           completedAt := none }]
        { id := "c9", name := "CS 1", meetingDays := [], meetingStartTime := "",
          meetingEndTime := "" }
        "CS One" ["Mon"] "09:00" "10:00").2[0]? =
      some { id := "a1", title := "HW", course := "CS One", dueDate := "",
             dueTime := "", status := Status.Open, notes := "", createdAt := "",
             completedAt := none } ∧
    (handleSaveEditClass
        [{ id := "c9", name := "CS 1", meetingDays := [], meetingStartTime := "",
           meetingEndTime := "" }]
        [{ id := "a1", title := "HW", course := "CS 1", dueDate := "",
           dueTime := "", status := Status.Open, notes := "", createdAt := "",
           completedAt := none },
         { id := "a2", title := "Essay", course := "Lit", dueDate := "",
           dueTime := "", status := Status.Open, notes := "", createdAt := "",
           completedAt := none }]
        { id := "c9", name := "CS 1", meetingDays := [], meetingStartTime := "",
          meetingEndTime := "" }
        "CS One" ["Mon"] "09:00" "10:00").2[1]? =
      some { id := "a2", title := "Essay", course := "Lit", dueDate := "",
             dueTime := "", status := Status.Open, notes := "", createdAt := "",
             completedAt := none } := by
  have key := C10_rename_rewrites_assignments
    [{ id := "c9", name := "CS 1", meetingDays := [], meetingStartTime := "",
       meetingEndTime := "" }]
    [{ id := "a1", title := "HW", course := "CS 1", dueDate := "",
       dueTime := "", status := Status.Open, notes := "", createdAt := "",
       completedAt := none },
     { id := "a2", title := "Essay", course := "Lit", dueDate := "",
       dueTime := "", status := Status.Open, notes := "", createdAt := "",
       completedAt := none }]
    { id := "c9", name := "CS 1", meetingDays := [], meetingStartTime := "",
      meetingEndTime := "" }
    "CS One" ["Mon"] "09:00" "10:00"
    (by decide)
    (by rintro ⟨it, hit, hne, _⟩
        rw [List.mem_singleton] at hit
        subst hit
        exact hne rfl)
  exact ⟨(key 0 _ rfl).1 rfl, (key 1 _ rfl).2 (by decide)⟩

end AssignmentTracker
